import Mathlib

/-!
Shallow embedding of the image pipeline in `src/app.py` (photo-webify).

An image is modelled as its dimensions, a colour mode, a total pixel
accessor, and the two `info` entries the code reads (`icc_profile`,
`exif`).  Library resampling (LANCZOS) is a parameter of type `Resample`;
colour management (`ImageCms.profileToProfile`) and the byte encoders are
oracles, since the codecs are external capabilities the pipeline calls.
Python floats are idealised as exact rationals; `round` is Python 3's
round-half-to-even and `int` its truncation toward zero.  Pixel-level
compositing follows Pillow's `AlphaComposite.c` integer arithmetic, and
`ImageEnhance.Brightness(..).enhance(f)` on a channel follows Pillow's
`ImagingBlend` (blend with a black image, C float-to-byte truncation).
-/

/-- Colour modes used by the pipeline (PIL mode strings). -/
inductive Mode where
  | RGB
  | RGBA
  | L
  | P
  | CMYK
  deriving DecidableEq, Repr

/-- One pixel; `a` is the alpha byte (for non-alpha modes it is the 255 pad
byte, and for mode `L` the grey value is stored in `r`). -/
structure Pixel where
  r : ℕ
  g : ℕ
  b : ℕ
  a : ℕ
  deriving DecidableEq, Repr

/-- A decoded PIL image: dimensions, mode, pixel accessor and the two
`info` entries the source reads (`icc_profile` and `exif`). -/
structure Img where
  width : ℕ
  height : ℕ
  mode : Mode
  px : ℕ → ℕ → Pixel
  icc : Option (List ℕ)
  exif : Option (List ℕ)

/-- Default image (used as the out-of-range value of heap lookups). -/
def defaultImg : Img :=
  { width := 0, height := 0, mode := Mode.RGB,
    px := fun _ _ => ⟨0, 0, 0, 255⟩, icc := none, exif := none }

instance : Inhabited Img := ⟨defaultImg⟩

/-- Python `int()` applied to a real value: truncation toward zero. -/
def pyTrunc (q : ℚ) : ℤ := if 0 ≤ q then ⌊q⌋ else -⌊-q⌋

/-- Python 3 `round()` applied to a real value: nearest integer, ties to
even (banker's rounding). -/
def pyRound (q : ℚ) : ℤ :=
  if (q - ⌊q⌋ : ℚ) < 1/2 then ⌊q⌋
  else if (1/2 : ℚ) < q - ⌊q⌋ then ⌊q⌋ + 1
  else if ⌊q⌋ % 2 = 0 then ⌊q⌋ else ⌊q⌋ + 1

/-- Python `str.lower()` restricted to the ASCII names the pipeline
handles: lowercase every character. -/
def pyLower (s : String) : String := String.mk (s.data.map Char.toLower)

/-- Python `str.upper()` restricted to the ASCII names the pipeline
handles: uppercase every character. -/
def pyUpper (s : String) : String := String.mk (s.data.map Char.toUpper)

/-- Python `str.endswith(p)`: `p` is a suffix of `s`. -/
def pyEndsWith (s p : String) : Bool := p.data.isSuffixOf s.data

/-- Pixel conversion underlying PIL `Image.convert` for the mode pairs the
pipeline exercises.  Converting away from an alpha mode drops alpha (PIL
does not flatten onto a background), converting into `RGBA` sets the alpha
byte to 255, and `L` grey is replicated onto the three channels.  Palette
expansion (`P`) is a library capability whose pixel content no claim
inspects; it is left as the identity on the stored pixel. -/
def convertPixel : Mode → Mode → Pixel → Pixel
  | Mode.RGBA, Mode.RGB, p => { p with a := 255 }
  | Mode.RGB, Mode.RGBA, p => { p with a := 255 }
  | Mode.L, Mode.RGB, p => ⟨p.r, p.r, p.r, 255⟩
  | Mode.L, Mode.RGBA, p => ⟨p.r, p.r, p.r, 255⟩
  | _, _, p => p

/-- PIL `Image.convert(mode)`: returns a new image in the requested mode;
size and `info` are preserved. -/
def Img.convert (im : Img) (m : Mode) : Img :=
  { im with mode := m, px := fun x y => convertPixel im.mode m (im.px x y) }

/-- PIL `Image.copy()`: a fresh object with the same value. -/
def Img.copy (im : Img) : Img := im

/-- PIL `Image.putalpha` with a greyscale band: replaces the alpha channel. -/
def Img.putalpha (im : Img) (alpha : ℕ → ℕ → ℕ) : Img :=
  { im with px := fun x y => { im.px x y with a := alpha x y } }

/-- The library's resampling kernel (LANCZOS): given the source image, the
target size and a target coordinate it produces the resampled pixel.  Its
numeric behaviour is a codec capability, so it is a parameter of the
embedding. -/
abbrev Resample := Img → ℕ → ℕ → ℕ → ℕ → Pixel

/-- PIL `Image.resize((w, h), Image.LANCZOS)`: an image of exactly the
requested size whose pixels come from the resampling kernel; mode and
`info` are preserved. -/
def Img.resizeWith (im : Img) (rs : Resample) (w h : ℕ) : Img :=
  { width := w, height := h, mode := im.mode,
    px := fun x y => rs im w h x y, icc := im.icc, exif := im.exif }

/-- Model of `ImageEnhance.Brightness(band).enhance(factor)` on one
channel value: Pillow blends the band with a black image, so each value
becomes `factor * v` truncated to a byte (exact for the factors in `[0,1)`
produced by the opacity branch). -/
def enhanceBrightness (factor : ℚ) (v : ℕ) : ℕ := (⌊factor * (v : ℚ)⌋).toNat

/-- `((a >> 8) + a) >> 8`, Pillow's `SHIFTFORDIV255`. -/
def shiftForDiv255 (a : ℕ) : ℕ := ((a >>> 8) + a) >>> 8

/-- Pillow's `PRECISION_BITS` in `AlphaComposite.c`. -/
def precisionBits : ℕ := 7

/-- One pixel of source-over compositing, following Pillow's
`AlphaComposite.c`: a fully transparent source leaves the destination
byte-identical, otherwise the integer coefficient arithmetic is applied. -/
def compositePixel (dst src : Pixel) : Pixel :=
  if src.a = 0 then dst
  else
    let blend := dst.a * (255 - src.a)
    let outa255 := src.a * 255 + blend
    let coef1 := src.a * 255 * 255 * (2 ^ precisionBits) / outa255
    let coef2 := 255 * (2 ^ precisionBits) - coef1
    let tmpr := src.r * coef1 + dst.r * coef2
    let tmpg := src.g * coef1 + dst.g * coef2
    let tmpb := src.b * coef1 + dst.b * coef2
    { r := shiftForDiv255 (tmpr + (0x80 <<< precisionBits)) >>> precisionBits,
      g := shiftForDiv255 (tmpg + (0x80 <<< precisionBits)) >>> precisionBits,
      b := shiftForDiv255 (tmpb + (0x80 <<< precisionBits)) >>> precisionBits,
      a := shiftForDiv255 (outa255 + 0x80) }

/-- `out.alpha_composite(wm, dest=(ox, oy))`: source-over compositing of
`wm` onto `base` at an integer offset, clipped naturally by the canvas
bounds (Pillow crops the overlapping region, composites and pastes back). -/
def Img.alphaCompositeAt (base wm : Img) (ox oy : ℤ) : Img :=
  { base with px := fun x y =>
      if ox ≤ (x : ℤ) ∧ (x : ℤ) < ox + wm.width ∧ oy ≤ (y : ℤ) ∧ (y : ℤ) < oy + wm.height then
        compositePixel (base.px x y) (wm.px ((x : ℤ) - ox).toNat ((y : ℤ) - oy).toNat)
      else base.px x y }

/-- Python exception classes distinguished by the source's handlers. -/
inductive PyErr where
  | typeError
  | valueError
  | osError
  | other
  deriving DecidableEq, Repr

/-- `ensure_rgb_and_srgb` (app.py lines 46-61).  The colour-management
conversion `ImageCms.profileToProfile(img, src, sRGB, outputMode="RGB")`
is the oracle `cms`; any exception it raises is caught and answered with a
plain `convert("RGB")`, so the embedded function is total. -/
def ensure_rgb_and_srgb (cms : Img → Except PyErr Img) (img : Img)
    (convert_to_srgb : Bool) : Img :=
  if convert_to_srgb then
    match img.icc with
    | some _ =>
      match cms img with
      | Except.ok out => out
      | Except.error _ => img.convert Mode.RGB
    | none => img.convert Mode.RGB
  else
    if img.mode = Mode.RGB ∨ img.mode = Mode.RGBA then img
    else img.convert Mode.RGB

/-- `resize_to_long_edge` (app.py lines 64-72).  `scale` is the exact
value of `target_long / float(long_side)` and the new dimensions are
`int(round(w * scale))`, `int(round(h * scale))` with no further
adjustment. -/
def resize_to_long_edge (rs : Resample) (img : Img) (target_long : ℤ) : Img :=
  let w := img.width
  let h := img.height
  let long_side := max w h
  if target_long ≤ 0 ∨ (long_side : ℤ) ≤ target_long then img
  else
    let scale : ℚ := (target_long : ℚ) / (long_side : ℚ)
    let new_w := pyRound ((w : ℚ) * scale)
    let new_h := pyRound ((h : ℚ) * scale)
    img.resizeWith rs new_w.toNat new_h.toNat

/-- The watermark scaling of `apply_watermark` (app.py lines 87-90):
`target_w = max(1, int(base.width * (scale_pct / 100.0)))`,
`scale = target_w / wm.width`, and the new size is
`(target_w, max(1, int(wm.height * scale)))`. -/
def wmTargetSize (baseW wmW wmH : ℕ) (scale_pct : ℚ) : ℕ × ℕ :=
  let target_w : ℤ := max 1 (pyTrunc ((baseW : ℚ) * (scale_pct / 100)))
  let scale : ℚ := (target_w : ℚ) / (wmW : ℚ)
  (target_w.toNat, (max 1 (pyTrunc ((wmH : ℚ) * scale))).toNat)

/-- The `positions` dict of `apply_watermark` (app.py lines 99-105);
`//` is Python floor division. -/
def positionsDict (baseW baseH wmW wmH margin : ℤ) : List (String × ℤ × ℤ) :=
  [("top-left", (margin, margin)),
   ("top-right", (baseW - wmW - margin, margin)),
   ("bottom-left", (margin, baseH - wmH - margin)),
   ("bottom-right", (baseW - wmW - margin, baseH - wmH - margin)),
   ("center", (Int.fdiv (baseW - wmW) 2, Int.fdiv (baseH - wmH) 2))]

/-- `positions.get(position, positions["bottom-right"])` (app.py line 106). -/
def wmPosition (position : String) (baseW baseH wmW wmH margin : ℤ) : ℤ × ℤ :=
  ((positionsDict baseW baseH wmW wmH margin).lookup position).getD
    (baseW - wmW - margin, baseH - wmH - margin)

/-- The opacity branch of `apply_watermark` (app.py lines 92-96): only
when `0 <= opacity_pct < 100` is the alpha band extracted
(`wm.split()[-1]`), scaled by `Brightness(..).enhance(opacity_pct / 100)`
and written back with `putalpha`. -/
def applyOpacity (wm : Img) (opacity_pct : ℚ) : Img :=
  if 0 ≤ opacity_pct ∧ opacity_pct < 100 then
    wm.putalpha (fun x y => enhanceBrightness (opacity_pct / 100) ((wm.px x y).a))
  else wm

/-- `apply_watermark` (app.py lines 75-110).  A `none` watermark returns
the base unchanged; otherwise both images are converted to RGBA, the
watermark is scaled against the base width, its opacity adjusted,
positioned, alpha-composited onto a copy of the base, and the result
flattened back to RGB. -/
def apply_watermark (rs : Resample) (base : Img) (watermark : Option Img)
    (position : String) (scale_pct opacity_pct : ℚ) (margin_px : ℤ) : Img :=
  match watermark with
  | none => base
  | some watermark =>
    let base := base.convert Mode.RGBA
    let wm0 := watermark.convert Mode.RGBA
    let sz := wmTargetSize base.width wm0.width wm0.height scale_pct
    let wm1 := wm0.resizeWith rs sz.1 sz.2
    let wm2 := applyOpacity wm1 opacity_pct
    let xy := wmPosition position (base.width : ℤ) (base.height : ℤ)
      (wm2.width : ℤ) (wm2.height : ℤ) margin_px
    let out := base.copy
    let out := out.alphaCompositeAt wm2 xy.1 xy.2
    out.convert Mode.RGB

/-- The external byte encoders called by `save_image_bytes`: each `save`
call is an oracle producing bytes or raising, and `saveEffect` is the
arbitrary in-place change the library may make to the object being saved
(e.g. forcing a lazy load, attaching encoder state). -/
structure Codec where
  jpegSave : Img → ℤ → Bool → Bool → List ℕ → Except PyErr (List ℕ)
  webpSaveExif : Img → ℤ → List ℕ → Except PyErr (List ℕ)
  webpSave : Img → ℤ → Except PyErr (List ℕ)
  pngSave : Img → Except PyErr (List ℕ)
  saveEffect : Img → Img

/-- A heap of PIL image objects, to make object identity (and hence the
no-mutation contract of the encoder) expressible; references are list
indices. -/
structure Heap where
  objs : List Img

/-- Dereference an object (out-of-range references yield a default). -/
def Heap.get (h : Heap) (r : ℕ) : Img := h.objs.getD r defaultImg

/-- Allocate a new object at reference `h.objs.length`. -/
def Heap.alloc (h : Heap) (im : Img) : Heap := ⟨h.objs ++ [im]⟩

/-- Overwrite the object at reference `r` in place. -/
def Heap.set (h : Heap) (r : ℕ) (im : Img) : Heap := ⟨h.objs.set r im⟩

/-- `save_image_bytes` (app.py lines 113-142) as a heap transformer on the
caller's image object `imgRef`.  The function uppercases the format, reads
the EXIF bytes, works on `work = img.copy()` (a fresh allocation), and
dispatches: JPEG converts the copy to RGB (a further fresh object) and
saves with quality/optimize/progressive/exif; WEBP saves with the exif
payload and retries without it if and only if that save raises
`TypeError`; anything else saves as PNG.  `saveEffect` records the
library's in-place mutation of whichever object is saved. -/
def save_image_bytes_st (c : Codec) (h : Heap) (imgRef : ℕ) (fmt : String)
    (quality : ℤ) (progressive optimize keep_metadata : Bool) :
    Heap × Except PyErr (List ℕ) :=
  let fmtU := pyUpper fmt
  let img := h.get imgRef
  let exif_bytes := if keep_metadata then img.exif.getD [] else []
  let h1 := h.alloc img
  let workRef := h.objs.length
  if fmtU = "JPEG" then
    let work1 := (h1.get workRef).convert Mode.RGB
    let h2 := h1.alloc work1
    let workRef2 := h1.objs.length
    let h3 := h2.set workRef2 (c.saveEffect (h2.get workRef2))
    (h3, c.jpegSave (h2.get workRef2) quality optimize progressive exif_bytes)
  else if fmtU = "WEBP" then
    let work := h1.get workRef
    let h2 := h1.set workRef (c.saveEffect work)
    (h2,
      match c.webpSaveExif work quality exif_bytes with
      | Except.ok bs => Except.ok bs
      | Except.error PyErr.typeError => c.webpSave (h2.get workRef) quality
      | Except.error e => Except.error e)
  else
    let work := h1.get workRef
    let h2 := h1.set workRef (c.saveEffect work)
    (h2, c.pngSave work)

/-- `process_one` (app.py lines 146-164): normalize, resize, watermark if
configured; encoding happens separately.  The unused encode parameters of
the Python signature are omitted. -/
def process_one (cms : Img → Except PyErr Img) (rs : Resample) (image : Img)
    (target_long : ℤ) (convert_to_srgb : Bool) (wm_img : Option Img)
    (wm_position : String) (wm_scale_pct wm_opacity_pct : ℚ)
    (wm_margin_px : ℤ) : Img :=
  let img := ensure_rgb_and_srgb cms image convert_to_srgb
  let img := resize_to_long_edge rs img target_long
  match wm_img with
  | some w => apply_watermark rs img (some w) wm_position wm_scale_pct
      wm_opacity_pct wm_margin_px
  | none => img

/-- `filename_with_suffix` (app.py lines 167-171): strip any `/` or `\`
path prefix and the last `.extension`, then append the suffix and the
lowercased format extension. -/
def filename_with_suffix (name suffix ext : String) : String :=
  let base := ((name.replace "\\" "/").splitOn "/").getLastD name
  let base := if base.contains '.' then
      String.intercalate "." (base.splitOn ".").dropLast
    else base
  base ++ suffix ++ "." ++ pyLower ext

/-- One member of an uploaded ZIP archive: its name, whether it is a
directory entry, and the outcome of `Image.open` + `exif_transpose` on its
bytes (`Except.error` models the decode raising). -/
structure ZipEntry where
  filename : String
  isDir : Bool
  decoded : Except Unit Img

/-- One uploaded file: its name, its members when the name says it is a
ZIP, and its decode outcome when it is treated as a single image. -/
structure Upload where
  name : String
  entries : List ZipEntry
  decoded : Except Unit Img

/-- The recognised image extension test of `read_uploaded_images`
(app.py line 27): lowercased name ends with one of the six extensions. -/
def hasImageExt (s : String) : Bool :=
  [".jpg", ".jpeg", ".png", ".webp", ".tif", ".tiff"].any
    (fun e => pyEndsWith (pyLower s) e)

/-- The inner ZIP loop of `read_uploaded_images` (app.py lines 23-35):
directory entries and unrecognised extensions are skipped, decode failures
are swallowed by the `try`/`except` and contribute nothing, successes are
appended in order. -/
def zipImages : List ZipEntry → List (String × Img)
  | [] => []
  | info :: rest =>
    if info.isDir then zipImages rest
    else if hasImageExt info.filename then
      match info.decoded with
      | Except.ok im => (info.filename, im) :: zipImages rest
      | Except.error _ => zipImages rest
    else zipImages rest

/-- `read_uploaded_images` (app.py lines 13-43).  The Python loop appends
into a single list, so the result is the concatenation of each upload's
contribution in order; a failing single-file decode contributes nothing
(`try`/`except`/`continue`). -/
def read_uploaded_images : List Upload → List (String × Img)
  | [] => []
  | uf :: rest =>
    (if pyEndsWith (pyLower uf.name) ".zip" then zipImages uf.entries
     else
       match uf.decoded with
       | Except.ok im => [(uf.name, im)]
       | Except.error _ => []) ++ read_uploaded_images rest

/-- The batch loop under the "Process images" button (app.py lines
285-292): each image is processed and encoded in input order and appended
to `results`.  There is no per-image exception guard, so Python semantics
make any raise abort the loop and discard the partial `results`; the
per-image step (process + encode + naming) is the parameter `step` and an
`Except.error` models it raising. -/
def batchProcess {ε : Type} (step : String × Img → Except ε (String × List ℕ)) :
    List (String × Img) → Except ε (List (String × List ℕ))
  | [] => Except.ok []
  | item :: rest =>
    match step item with
    | Except.error e => Except.error e
    | Except.ok r =>
      match batchProcess step rest with
      | Except.error e => Except.error e
      | Except.ok rs => Except.ok (r :: rs)

/-- The ZIP compression constant used by the export branch
(`zipfile.ZIP_DEFLATED`). -/
inductive Compression where
  | deflated
  deriving DecidableEq, Repr

/-- What the export step hands to the download button. -/
inductive Delivery where
  | single (filename : String) (data : List ℕ) (mime : String)
  | archive (filename : String) (compression : Compression)
      (entries : List (String × List ℕ))

/-- The MIME type chosen by the export branch (app.py line 300). -/
def mimeFor (out_fmt : String) : String :=
  if pyUpper out_fmt = "JPEG" then "image/jpeg" else "image/webp"

/-- The export branch (app.py lines 294-316): exactly one result is
offered directly; otherwise every result is written, in order, into a
deflate-compressed archive named `exports_` + timestamp + `.zip`.  The
`strftime("%Y%m%d_%H%M%S")` timestamp string is the parameter `ts`. -/
def exportResults (results : List (String × List ℕ)) (out_fmt ts : String) :
    Delivery :=
  if results.length = 1 then
    let f := results.headD ("", [])
    Delivery.single f.1 f.2 (mimeFor out_fmt)
  else
    Delivery.archive ("exports_" ++ ts ++ ".zip") Compression.deflated results

/-- Pixelwise agreement of two images on their (equal) dimensions,
together with equal mode. -/
def Img.sameImage (a b : Img) : Prop :=
  a.width = b.width ∧ a.height = b.height ∧ a.mode = b.mode ∧
    ∀ x, x < a.width → ∀ y, y < a.height → a.px x y = b.px x y

/-! ### Concrete inputs used by witnesses and counterexamples -/

/-- A plain RGB image of the given size, black with the 255 pad byte. -/
def mkImg (w h : ℕ) : Img :=
  { width := w, height := h, mode := Mode.RGB,
    px := fun _ _ => ⟨0, 0, 0, 255⟩, icc := none, exif := none }

/-- A resampling kernel producing opaque black (the pixel content of the
library kernel is irrelevant to the claims it witnesses). -/
def constResample : Resample := fun _ _ _ _ _ => ⟨0, 0, 0, 255⟩

/-- A resampling kernel producing opaque white. -/
def whiteResample : Resample := fun _ _ _ _ _ => ⟨255, 255, 255, 255⟩

/-- A 1×1 opaque white RGBA watermark. -/
def wmWhite : Img :=
  { width := 1, height := 1, mode := Mode.RGBA,
    px := fun _ _ => ⟨255, 255, 255, 255⟩, icc := none, exif := none }

/-- An extreme 1×10000 image. -/
def tallImg : Img := mkImg 1 10000

/-! ### Claim C3 — resize is a no-op when the target does not require
downscaling -/

/-- Claim C3: if `targetLongEdge <= 0` or the long side is already within
the target, `resize_to_long_edge` returns the image itself unchanged. -/
theorem resize_to_long_edge_noop (rs : Resample) (img : Img) (t : ℤ)
    (h : t ≤ 0 ∨ ((max img.width img.height : ℕ) : ℤ) ≤ t) :
    resize_to_long_edge rs img t = img := by
  unfold resize_to_long_edge
  simp only []
  rw [if_pos h]

/-- Witness for C3 at a concrete input: a 1×1 image with target 2 is
passed through untouched. -/
theorem resize_to_long_edge_noop_witness :
    ((2 : ℤ) ≤ 0 ∨ ((max (mkImg 1 1).width (mkImg 1 1).height : ℕ) : ℤ) ≤ 2) ∧
    resize_to_long_edge constResample (mkImg 1 1) 2 = mkImg 1 1 :=
  ⟨Or.inr (by norm_num [mkImg]),
   resize_to_long_edge_noop constResample (mkImg 1 1) 2
     (Or.inr (by norm_num [mkImg]))⟩

/-! ### Claim C2 — resize dimensions: the rounding formula holds but there
is no 1px floor in the code -/

/-- Claim C2 (amended): when `0 < targetLongEdge < longSide`, the output
dimensions are exactly `int(round(w * scale))` and `int(round(h * scale))`
with `scale = targetLongEdge / longSide` (Python round-half-to-even), with
no 1px floor applied. -/
theorem resize_to_long_edge_dims (rs : Resample) (img : Img) (t : ℤ)
    (h1 : 0 < t) (h2 : t < ((max img.width img.height : ℕ) : ℤ)) :
    (resize_to_long_edge rs img t).width
      = (pyRound ((img.width : ℚ)
          * ((t : ℚ) / ((max img.width img.height : ℕ) : ℚ)))).toNat ∧
    (resize_to_long_edge rs img t).height
      = (pyRound ((img.height : ℚ)
          * ((t : ℚ) / ((max img.width img.height : ℕ) : ℚ)))).toNat := by
  have hcond : ¬ (t ≤ 0 ∨ ((max img.width img.height : ℕ) : ℤ) ≤ t) := by
    push_neg
    exact ⟨h1, h2⟩
  unfold resize_to_long_edge
  simp only []
  rw [if_neg hcond]
  exact ⟨rfl, rfl⟩

/-- Witness for the amended C2 at a concrete input: a 4×2 image resized to
target 2 becomes 2×1. -/
theorem resize_to_long_edge_dims_witness :
    (0 : ℤ) < 2 ∧ (2 : ℤ) < ((max (mkImg 4 2).width (mkImg 4 2).height : ℕ) : ℤ) ∧
    (resize_to_long_edge constResample (mkImg 4 2) 2).width = 2 ∧
    (resize_to_long_edge constResample (mkImg 4 2) 2).height = 1 := by
  have h := resize_to_long_edge_dims constResample (mkImg 4 2) 2
    (by norm_num) (by norm_num [mkImg])
  refine ⟨by norm_num, by norm_num [mkImg], ?_, ?_⟩
  · rw [h.1]
    norm_num [mkImg, pyRound]
    try decide
  · rw [h.2]
    norm_num [mkImg, pyRound]
    try decide

/-- Counterexample to C2 as stated: the code computes
`int(round(1 * 100/10000)) = 0` for the width of a 1×10000 image at target
100 — an output dimension of 0, so no 1px floor exists. -/
theorem resize_width_zero_counterexample :
    (resize_to_long_edge constResample tallImg 100).width = 0 := by
  norm_num [resize_to_long_edge, pyRound, tallImg, mkImg, Img.resizeWith]

/-! ### Claim C5 — watermark placement -/

/-- Claim C5: the placement arithmetic matches the specified formulas for
every recognised position, any unrecognised position falls back to the
bottom-right formula, the concrete 1000×800 base / 100×80 watermark /
margin 24 scenario places the corner at (876, 696), and a 500×400
watermark against a 1000-wide base at 10 percent scales to 100×80. -/
theorem apply_watermark_position (bw bh ww wh m : ℤ) (s : String)
    (h1 : s ≠ "top-left") (h2 : s ≠ "top-right") (h3 : s ≠ "bottom-left")
    (h4 : s ≠ "bottom-right") (h5 : s ≠ "center") :
    wmPosition "top-left" bw bh ww wh m = (m, m) ∧
    wmPosition "top-right" bw bh ww wh m = (bw - ww - m, m) ∧
    wmPosition "bottom-left" bw bh ww wh m = (m, bh - wh - m) ∧
    wmPosition "bottom-right" bw bh ww wh m = (bw - ww - m, bh - wh - m) ∧
    wmPosition "center" bw bh ww wh m
      = (Int.fdiv (bw - ww) 2, Int.fdiv (bh - wh) 2) ∧
    wmPosition s bw bh ww wh m = (bw - ww - m, bh - wh - m) ∧
    wmPosition "bottom-right" 1000 800 100 80 24 = (876, 696) ∧
    wmTargetSize 1000 500 400 10 = (100, 80) := by
  have b1 : (s == "top-left") = false := beq_eq_false_iff_ne.mpr h1
  have b2 : (s == "top-right") = false := beq_eq_false_iff_ne.mpr h2
  have b3 : (s == "bottom-left") = false := beq_eq_false_iff_ne.mpr h3
  have b4 : (s == "bottom-right") = false := beq_eq_false_iff_ne.mpr h4
  have b5 : (s == "center") = false := beq_eq_false_iff_ne.mpr h5
  refine ⟨rfl, rfl, rfl, rfl, rfl, ?_, ?_, ?_⟩
  · simp [wmPosition, positionsDict, List.lookup, b1, b2, b3, b4, b5]
  · norm_num [wmPosition, positionsDict, List.lookup]
    decide
  · norm_num [wmTargetSize, pyTrunc]
    decide

/-- Witness for C5 at concrete inputs, with the unrecognised position
`"middle"`. -/
theorem apply_watermark_position_witness :
    wmPosition "top-left" 1000 800 100 80 24 = (24, 24) ∧
    wmPosition "top-right" 1000 800 100 80 24 = (876, 24) ∧
    wmPosition "bottom-left" 1000 800 100 80 24 = (24, 696) ∧
    wmPosition "bottom-right" 1000 800 100 80 24 = (876, 696) ∧
    wmPosition "center" 1000 800 100 80 24
      = (Int.fdiv (1000 - 100) 2, Int.fdiv (800 - 80) 2) ∧
    wmPosition "middle" 1000 800 100 80 24 = (876, 696) ∧
    wmPosition "bottom-right" 1000 800 100 80 24 = (876, 696) ∧
    wmTargetSize 1000 500 400 10 = (100, 80) := by
  have h := apply_watermark_position 1000 800 100 80 24 "middle"
    (by decide) (by decide) (by decide) (by decide) (by decide)
  exact ⟨h.1, h.2.1, h.2.2.1, by decide, h.2.2.2.2.1, h.2.2.2.2.2.1,
    h.2.2.2.2.2.2.1, h.2.2.2.2.2.2.2⟩

/-! ### Claim C4 — opacity adjustment and its edge cases -/

/-- Compositing a fully transparent source pixel leaves the destination
pixel byte-identical (the `src->a == 0` fast path of `AlphaComposite.c`). -/
lemma compositePixel_transparent (d s : Pixel) (hs : s.a = 0) :
    compositePixel d s = d := by
  unfold compositePixel
  rw [if_pos hs]

/-- Rebuilding a pixel with alpha 255 is the identity when its alpha
already is 255. -/
lemma pixel_eq_of_alpha (p : Pixel) (hp : p.a = 255) :
    Pixel.mk p.r p.g p.b 255 = p := by
  cases p
  simp only at hp
  rw [hp]

/-- Claim C4: for `0 <= opacityPct < 100` the opacity branch replaces
every alpha value by `Brightness(..).enhance(opacityPct/100)` of it, i.e.
the pixelwise multiple of the existing alpha, leaving colours untouched;
for `opacityPct >= 100` (in particular 100 itself) the watermark is left
untouched and the original alpha is composited; and `opacityPct = 0`
yields a composite pixel-identical to an RGB base image. -/
theorem apply_watermark_opacity (rs : Resample) (base wm wmS : Img)
    (pos : String) (sc : ℚ) (m : ℤ) (op : ℚ) (x y : ℕ) :
    (0 ≤ op → op < 100 →
      (applyOpacity wmS op).px x y
        = { wmS.px x y with a := enhanceBrightness (op / 100) ((wmS.px x y).a) }) ∧
    (100 ≤ op → applyOpacity wmS op = wmS) ∧
    (base.mode = Mode.RGB → (∀ u v, (base.px u v).a = 255) →
      Img.sameImage (apply_watermark rs base (some wm) pos sc 0 m) base) := by
  refine ⟨?_, ?_, ?_⟩
  · intro hge hlt
    unfold applyOpacity
    rw [if_pos ⟨hge, hlt⟩]
    rfl
  · intro hge
    unfold applyOpacity
    rw [if_neg]
    intro hc
    exact absurd hge (not_le.mpr hc.2)
  · intro hm ha
    have hz : ∀ (w : Img) (i j : ℕ), ((applyOpacity w 0).px i j).a = 0 := by
      intro w i j
      unfold applyOpacity
      rw [if_pos (by norm_num)]
      simp [Img.putalpha, enhanceBrightness]
    simp only [apply_watermark, Img.sameImage]
    refine ⟨rfl, rfl, hm.symm, ?_⟩
    intro x' hx' y' hy'
    simp only [Img.convert, Img.copy, Img.alphaCompositeAt]
    split
    · rw [compositePixel_transparent _ _ (hz _ _ _), hm]
      exact pixel_eq_of_alpha _ (ha x' y')
    · rw [hm]
      exact pixel_eq_of_alpha _ (ha x' y')

/-- Witness for C4 at concrete inputs: a 50 percent opacity rewrites the
alpha channel as claimed, 100 percent leaves the watermark untouched, and
a zero-opacity watermark leaves a 3×3 RGB base pixel-identical. -/
theorem apply_watermark_opacity_witness :
    (0 : ℚ) ≤ 50 ∧ (50 : ℚ) < 100 ∧
    (applyOpacity wmWhite 50).px 0 0
      = { wmWhite.px 0 0 with a := enhanceBrightness (50 / 100) ((wmWhite.px 0 0).a) } ∧
    applyOpacity wmWhite 100 = wmWhite ∧
    (mkImg 3 3).mode = Mode.RGB ∧
    (apply_watermark constResample (mkImg 3 3) (some wmWhite) "bottom-right" 10 0 2).width
      = (mkImg 3 3).width ∧
    (apply_watermark constResample (mkImg 3 3) (some wmWhite) "bottom-right" 10 0 2).px 1 1
      = (mkImg 3 3).px 1 1 := by
  have h50 := apply_watermark_opacity constResample (mkImg 3 3) wmWhite wmWhite
    "bottom-right" 10 2 50 0 0
  have h100 := apply_watermark_opacity constResample (mkImg 3 3) wmWhite wmWhite
    "bottom-right" 10 2 100 0 0
  obtain ⟨hw, hh, hmode, hpx⟩ := h50.2.2 rfl (fun u v => rfl)
  refine ⟨by norm_num, by norm_num, h50.1 (by norm_num) (by norm_num),
    h100.2.1 (by norm_num), rfl, hw, ?_⟩
  exact hpx 1 (by rw [hw]; norm_num [mkImg]) 1 (by rw [hh]; norm_num [mkImg])

/-! ### Claim C10 — negative opacity behaves like 100, not like 0 -/

/-- When the guard `0 <= opacity_pct < 100` fails the watermark passes
through the opacity branch untouched. -/
lemma applyOpacity_of_not (w : Img) (op : ℚ) (h : ¬ (0 ≤ op ∧ op < 100)) :
    applyOpacity w op = w := by
  unfold applyOpacity
  rw [if_neg h]

/-- Claim C10: for any negative `opacityPct` the opacity branch is
skipped, so the whole watermark application coincides with
`opacityPct = 100`; and (concretely) the result differs from the
`opacityPct = 0` result, i.e. a negative opacity is not transparency. -/
theorem apply_watermark_negative_opacity (rs : Resample) (base wm : Img)
    (pos : String) (sc : ℚ) (m : ℤ) (op : ℚ) (hop : op < 0) :
    apply_watermark rs base (some wm) pos sc op m
      = apply_watermark rs base (some wm) pos sc 100 m ∧
    (apply_watermark whiteResample (mkImg 4 4) (some wmWhite) "top-left" 25 (-5) 0).px 0 0
      ≠ (apply_watermark whiteResample (mkImg 4 4) (some wmWhite) "top-left" 25 0 0).px 0 0 := by
  constructor
  · have e1 : ∀ w : Img, applyOpacity w op = w :=
      fun w => applyOpacity_of_not w op (fun hc => absurd hc.1 (not_le.mpr hop))
    have e2 : ∀ w : Img, applyOpacity w (100 : ℚ) = w :=
      fun w => applyOpacity_of_not w 100 (by norm_num)
    simp only [apply_watermark, e1, e2]
  · have hL : (apply_watermark whiteResample (mkImg 4 4) (some wmWhite)
        "top-left" 25 (-5) 0).px 0 0 = ⟨255, 255, 255, 255⟩ := by
      norm_num [apply_watermark, wmTargetSize, applyOpacity, pyTrunc, Img.convert,
        Img.copy, Img.resizeWith, Img.alphaCompositeAt, wmPosition, positionsDict,
        List.lookup, compositePixel, Img.putalpha, convertPixel, mkImg, wmWhite,
        whiteResample, shiftForDiv255, precisionBits, enhanceBrightness]
      try decide
    have hR : (apply_watermark whiteResample (mkImg 4 4) (some wmWhite)
        "top-left" 25 0 0).px 0 0 = ⟨0, 0, 0, 255⟩ := by
      norm_num [apply_watermark, wmTargetSize, applyOpacity, pyTrunc, Img.convert,
        Img.copy, Img.resizeWith, Img.alphaCompositeAt, wmPosition, positionsDict,
        List.lookup, compositePixel, Img.putalpha, convertPixel, mkImg, wmWhite,
        whiteResample, shiftForDiv255, precisionBits, enhanceBrightness]
      try decide
    rw [hL, hR]
    decide

/-- Witness for C10 at a concrete negative opacity. -/
theorem apply_watermark_negative_opacity_witness :
    (-5 : ℚ) < 0 ∧
    apply_watermark constResample (mkImg 2 2) (some wmWhite) "center" 10 (-5) 1
      = apply_watermark constResample (mkImg 2 2) (some wmWhite) "center" 10 100 1 :=
  ⟨by norm_num,
   (apply_watermark_negative_opacity constResample (mkImg 2 2) wmWhite "center"
     10 1 (-5) (by norm_num)).1⟩

/-! ### Claim C6 — the colour normalizer is total and lands in RGB/RGBA -/

/-- Claim C6: whatever the colour-management oracle does (succeed with an
RGB image, per the library contract of `outputMode="RGB"`, or raise), the
normalizer returns an image whose mode is RGB or RGBA; it is total by
construction, every oracle failure being answered by the plain
conversion. -/
theorem ensure_rgb_and_srgb_mode (cms : Img → Except PyErr Img) (img : Img)
    (b : Bool) (hcms : ∀ out, cms img = Except.ok out → out.mode = Mode.RGB) :
    (ensure_rgb_and_srgb cms img b).mode = Mode.RGB ∨
    (ensure_rgb_and_srgb cms img b).mode = Mode.RGBA := by
  unfold ensure_rgb_and_srgb
  cases b with
  | false =>
    simp only [Bool.false_eq_true, if_false]
    split
    · rename_i hmoo
      rcases hmoo with hmo | hmo
      · exact Or.inl hmo
      · exact Or.inr hmo
    · exact Or.inl rfl
  | true =>
    simp only [if_true]
    cases hicc : img.icc with
    | none => exact Or.inl rfl
    | some p =>
      cases hc : cms img with
      | ok out =>
        simp only [hicc, hc]
        exact Or.inl (hcms out hc)
      | error e =>
        simp only [hicc, hc]
        exact Or.inl rfl

/-- A colour-management oracle that always raises. -/
def cmsFail : Img → Except PyErr Img := fun _ => Except.error PyErr.other

/-- Witness for C6 with a failing colour-management oracle and an RGB
input requesting sRGB conversion. -/
theorem ensure_rgb_and_srgb_mode_witness :
    (ensure_rgb_and_srgb cmsFail (mkImg 2 2) true).mode = Mode.RGB ∨
    (ensure_rgb_and_srgb cmsFail (mkImg 2 2) true).mode = Mode.RGBA :=
  ensure_rgb_and_srgb_mode cmsFail (mkImg 2 2) true
    (fun out h => by simp [cmsFail] at h)

/-! ### Heap lemmas for the encoder's no-mutation contract -/

/-- Allocation grows the heap by one object. -/
lemma Heap.length_alloc (h : Heap) (im : Img) :
    (h.alloc im).objs.length = h.objs.length + 1 := by
  simp [Heap.alloc]

/-- Allocation does not disturb existing objects. -/
lemma Heap.get_alloc_of_lt (h : Heap) (im : Img) (r : ℕ)
    (hr : r < h.objs.length) : (h.alloc im).get r = h.get r := by
  simp [Heap.get, Heap.alloc, List.getD_eq_getElem?_getD,
    List.getElem?_append_left hr]

/-- The freshly allocated object is the stored value. -/
lemma Heap.get_alloc_self (h : Heap) (im : Img) :
    (h.alloc im).get h.objs.length = im := by
  simp [Heap.get, Heap.alloc, List.getD_eq_getElem?_getD,
    List.getElem?_append_right (le_refl h.objs.length)]

/-- Overwriting one object does not disturb the others. -/
lemma Heap.get_set_of_ne (h : Heap) (i r : ℕ) (im : Img) (hne : r ≠ i) :
    (h.set i im).get r = h.get r := by
  simp [Heap.get, Heap.set, List.getD_eq_getElem?_getD,
    List.getElem?_set_ne (Ne.symm hne)]

/-- Overwriting an in-range object stores the value. -/
lemma Heap.get_set_self (h : Heap) (i : ℕ) (im : Img) (hi : i < h.objs.length) :
    (h.set i im).get i = im := by
  simp [Heap.get, Heap.set, List.getD_eq_getElem?_getD, List.getElem?_set_self, hi]

/-- One call to the encoder leaves the caller's object untouched: every
branch works on the freshly copied object only. -/
lemma save_image_bytes_st_get (c : Codec) (h : Heap) (r : ℕ) (fmt : String)
    (q : ℤ) (pr op k : Bool) (hr : r < h.objs.length) :
    (save_image_bytes_st c h r fmt q pr op k).1.get r = h.get r := by
  have hr1 : r < (h.alloc (h.get r)).objs.length := by
    rw [Heap.length_alloc]
    omega
  have hne1 : r ≠ h.objs.length := Nat.ne_of_lt hr
  have hne2 : r ≠ (h.alloc (h.get r)).objs.length := by
    rw [Heap.length_alloc]
    omega
  unfold save_image_bytes_st
  simp only []
  split
  · rw [Heap.get_set_of_ne _ _ _ _ hne2, Heap.get_alloc_of_lt _ _ _ hr1,
      Heap.get_alloc_of_lt _ _ _ hr]
  · split
    · rw [Heap.get_set_of_ne _ _ _ _ hne1, Heap.get_alloc_of_lt _ _ _ hr]
    · rw [Heap.get_set_of_ne _ _ _ _ hne1, Heap.get_alloc_of_lt _ _ _ hr]

/-- The encoder never shrinks the heap. -/
lemma save_image_bytes_st_length (c : Codec) (h : Heap) (r : ℕ) (fmt : String)
    (q : ℤ) (pr op k : Bool) :
    h.objs.length ≤ (save_image_bytes_st c h r fmt q pr op k).1.objs.length := by
  unfold save_image_bytes_st
  simp only []
  split
  · simp [Heap.set, Heap.alloc]
  · split <;> simp [Heap.set, Heap.alloc]

/-! ### Claim C8 — encoding never mutates the input image -/

/-- Claim C8: for every codec behaviour, format and option combination the
encoder leaves the caller's image object byte-identical, including across
two successive calls with different formats; it operates only on the
private copy it allocates. -/
theorem save_image_bytes_no_mutation (c : Codec) (h : Heap) (r : ℕ)
    (fmt fmt2 : String) (q q2 : ℤ) (pr op k pr2 op2 k2 : Bool)
    (hr : r < h.objs.length) :
    (save_image_bytes_st c h r fmt q pr op k).1.get r = h.get r ∧
    (save_image_bytes_st c (save_image_bytes_st c h r fmt q pr op k).1 r
        fmt2 q2 pr2 op2 k2).1.get r = h.get r := by
  have hmono := save_image_bytes_st_length c h r fmt q pr op k
  have h1 := save_image_bytes_st_get c h r fmt q pr op k hr
  have h2 := save_image_bytes_st_get c (save_image_bytes_st c h r fmt q pr op k).1
    r fmt2 q2 pr2 op2 k2 (lt_of_lt_of_le hr hmono)
  exact ⟨h1, h2.trans h1⟩

/-- A codec whose save effect visibly mutates the saved object and whose
WEBP metadata save raises `TypeError`. -/
def codecProbe : Codec :=
  { jpegSave := fun _ _ _ _ _ => Except.ok [1]
    webpSaveExif := fun _ _ _ => Except.error PyErr.typeError
    webpSave := fun _ _ => Except.ok [2]
    pngSave := fun _ => Except.ok [3]
    saveEffect := fun im => { im with exif := some [9] } }

/-- A one-object heap holding a 2×2 image. -/
def heapOne : Heap := ⟨[mkImg 2 2]⟩

/-- Witness for C8: two successive encodes (JPEG then WEBP) against a
mutating codec leave the caller's object untouched. -/
theorem save_image_bytes_no_mutation_witness :
    0 < heapOne.objs.length ∧
    (save_image_bytes_st codecProbe heapOne 0 "JPEG" 85 true true false).1.get 0
      = heapOne.get 0 ∧
    (save_image_bytes_st codecProbe
        (save_image_bytes_st codecProbe heapOne 0 "JPEG" 85 true true false).1 0
        "WEBP" 85 true true false).1.get 0 = heapOne.get 0 := by
  have h := save_image_bytes_no_mutation codecProbe heapOne 0 "JPEG" "WEBP"
    85 85 true true false true true false (by norm_num [heapOne])
  exact ⟨by norm_num [heapOne], h.1, h.2⟩

/-! ### Claim C7 — the WEBP metadata retry catches TypeError only -/

/-- Claim C7 (amended): a metadata-carrying WEBP save that raises
`TypeError` is retried without metadata and that result is returned; a
successful save passes through; but a failure of any other exception class
propagates to the caller. -/
theorem webp_typeerror_retries (c : Codec) (h : Heap) (r : ℕ) (q : ℤ)
    (pr op k : Bool) (e : PyErr) (bs : List ℕ) :
    (c.webpSaveExif (h.get r) q (if k then (h.get r).exif.getD [] else [])
        = Except.error PyErr.typeError →
      (save_image_bytes_st c h r "WEBP" q pr op k).2
        = c.webpSave (c.saveEffect (h.get r)) q) ∧
    (c.webpSaveExif (h.get r) q (if k then (h.get r).exif.getD [] else [])
        = Except.ok bs →
      (save_image_bytes_st c h r "WEBP" q pr op k).2 = Except.ok bs) ∧
    (e ≠ PyErr.typeError →
      c.webpSaveExif (h.get r) q (if k then (h.get r).exif.getD [] else [])
        = Except.error e →
      (save_image_bytes_st c h r "WEBP" q pr op k).2 = Except.error e) := by
  have hset : ((Heap.alloc h (h.get r)).set h.objs.length
      (c.saveEffect (h.get r))).get h.objs.length = c.saveEffect (h.get r) := by
    apply Heap.get_set_self
    rw [Heap.length_alloc]
    omega
  refine ⟨?_, ?_, ?_⟩
  · intro hexc
    unfold save_image_bytes_st
    simp only []
    rw [if_neg (by decide), if_pos (by decide), Heap.get_alloc_self, hexc]
    simp only [hset]
  · intro hexc
    unfold save_image_bytes_st
    simp only []
    rw [if_neg (by decide), if_pos (by decide), Heap.get_alloc_self, hexc]
  · intro hne hexc
    unfold save_image_bytes_st
    simp only []
    rw [if_neg (by decide), if_pos (by decide), Heap.get_alloc_self, hexc]
    cases e with
    | typeError => exact absurd rfl hne
    | valueError => rfl
    | osError => rfl
    | other => rfl

/-- Witness for the amended C7: against `codecProbe` (whose metadata save
raises `TypeError`) the encoder returns the metadata-less retry result. -/
theorem webp_typeerror_retries_witness :
    codecProbe.webpSaveExif (heapOne.get 0) 85
        (if false then (heapOne.get 0).exif.getD [] else [])
      = Except.error PyErr.typeError ∧
    (save_image_bytes_st codecProbe heapOne 0 "WEBP" 85 true true false).2
      = codecProbe.webpSave (codecProbe.saveEffect (heapOne.get 0)) 85 :=
  ⟨rfl, (webp_typeerror_retries codecProbe heapOne 0 85 true true false
    PyErr.other []).1 rfl⟩

/-- A codec whose WEBP metadata save fails with `OSError`. -/
def codecMetaOSError : Codec :=
  { jpegSave := fun _ _ _ _ _ => Except.ok [1]
    webpSaveExif := fun _ _ _ => Except.error PyErr.osError
    webpSave := fun _ _ => Except.ok [2]
    pngSave := fun _ => Except.ok [3]
    saveEffect := fun im => im }

/-- Counterexample to C7 as stated: a metadata-embedding failure of class
`OSError` is not retried — `save_image_bytes` re-raises it to the caller,
because the handler catches `TypeError` only. -/
theorem webp_metadata_failure_propagates :
    (save_image_bytes_st codecMetaOSError heapOne 0 "WEBP" 85 true true true).2
      = Except.error PyErr.osError := rfl

/-! ### Claim C9 — single result delivered directly, several results
archived -/

/-- Claim C9: a one-entry batch result is delivered directly as a single
encoded file with the format's MIME type; more than one entry is packaged,
in input order, into a deflate-compressed archive named
`exports_` + timestamp + `.zip` with one entry per output. -/
theorem export_results_delivery (results : List (String × List ℕ))
    (fmtS ts n : String) (d : List ℕ) (hlen : 1 < results.length) :
    exportResults [(n, d)] fmtS ts = Delivery.single n d (mimeFor fmtS) ∧
    exportResults results fmtS ts
      = Delivery.archive ("exports_" ++ ts ++ ".zip") Compression.deflated
          results := by
  constructor
  · rfl
  · unfold exportResults
    rw [if_neg (by omega : ¬ results.length = 1)]

/-- Witness for C9: one JPEG result is a direct file, two results become a
deflate archive holding both, in order. -/
theorem export_results_delivery_witness :
    1 < ([("a_web.jpg", [1]), ("b_web.jpg", [2])] : List (String × List ℕ)).length ∧
    exportResults [("c_web.jpg", [3])] "JPEG" "20260101_120000"
      = Delivery.single "c_web.jpg" [3] (mimeFor "JPEG") ∧
    exportResults [("a_web.jpg", [1]), ("b_web.jpg", [2])] "JPEG" "20260101_120000"
      = Delivery.archive ("exports_" ++ "20260101_120000" ++ ".zip")
          Compression.deflated [("a_web.jpg", [1]), ("b_web.jpg", [2])] := by
  have h := export_results_delivery [("a_web.jpg", [1]), ("b_web.jpg", [2])]
    "JPEG" "20260101_120000" "c_web.jpg" [3] (by norm_num)
  exact ⟨by norm_num, h.1, h.2⟩

/-! ### Claim C1 — decode failures are skipped, but the batch loop has no
per-image guard -/

/-- An all-successful batch yields one output per image, in input order. -/
lemma batchProcess_all_ok {ε : Type}
    (step : String × Img → Except ε (String × List ℕ))
    (f : String × Img → String × List ℕ) :
    ∀ images : List (String × Img),
      (∀ it ∈ images, step it = Except.ok (f it)) →
      batchProcess step images = Except.ok (images.map f) := by
  intro images
  induction images with
  | nil => intro _; rfl
  | cons it rest ih =>
    intro hok
    have h1 : step it = Except.ok (f it) := hok it (List.mem_cons_self it rest)
    have h2 := ih (fun x hx => hok x (List.mem_cons_of_mem it hx))
    simp [batchProcess, h1, h2]

/-- If any image's step raises, the whole batch raises: the partial
results accumulated before the failure are discarded. -/
lemma batchProcess_error_mid {ε : Type}
    (step : String × Img → Except ε (String × List ℕ))
    (f : String × Img → String × List ℕ) (item : String × Img) (e : ε) :
    ∀ pre post : List (String × Img),
      (∀ it ∈ pre, step it = Except.ok (f it)) →
      step item = Except.error e →
      batchProcess step (pre ++ item :: post) = Except.error e := by
  intro pre
  induction pre with
  | nil =>
    intro post _ hitem
    simp [batchProcess, hitem]
  | cons p ps ih =>
    intro post hpre hitem
    have h1 : step p = Except.ok (f p) := hpre p (List.mem_cons_self p ps)
    have h2 := ih post (fun x hx => hpre x (List.mem_cons_of_mem p hx)) hitem
    simp [batchProcess, h1, h2]

/-- Claim C1 (amended): a failure while decoding an input never aborts the
reading stage — the failing single file or ZIP member is dropped silently
and every other image is decoded in input order — but the batch loop has
no per-image guard: a processing/encoding failure on any image aborts the
whole batch with no outputs at all, discarding even the images processed
before it, while an all-success batch yields one output per image in
order. -/
theorem batch_skip_and_abort (n fn : String) (es : List ZipEntry) (im : Img)
    (rest : List Upload) (images pre post : List (String × Img))
    (item : String × Img)
    (step : String × Img → Except Unit (String × List ℕ))
    (f : String × Img → String × List ℕ) (e : Unit)
    (hn : pyEndsWith (pyLower n) ".zip" = false) (hf : hasImageExt fn = true) :
    read_uploaded_images ({ name := n, entries := es, decoded := Except.error () } :: rest)
      = read_uploaded_images rest ∧
    read_uploaded_images ({ name := n, entries := es, decoded := Except.ok im } :: rest)
      = (n, im) :: read_uploaded_images rest ∧
    zipImages ({ filename := fn, isDir := false, decoded := Except.error () } :: es)
      = zipImages es ∧
    ((∀ it ∈ images, step it = Except.ok (f it)) →
      batchProcess step images = Except.ok (images.map f)) ∧
    ((∀ it ∈ pre, step it = Except.ok (f it)) → step item = Except.error e →
      batchProcess step (pre ++ item :: post) = Except.error e) := by
  refine ⟨?_, ?_, ?_, batchProcess_all_ok step f images,
    batchProcess_error_mid step f item e pre post⟩
  · simp [read_uploaded_images, hn]
  · simp [read_uploaded_images, hn]
  · simp [zipImages, hf]

/-- A per-image step that raises on `b.jpg` and succeeds elsewhere
(modelling, e.g., a truncated file whose lazy decode error surfaces during
processing). -/
def stepFail : String × Img → Except Unit (String × List ℕ) :=
  fun it => if it.1 = "b.jpg" then Except.error () else Except.ok (it.1, [7])

/-- Witness for the amended C1 at concrete inputs. -/
theorem batch_skip_and_abort_witness :
    pyEndsWith (pyLower "bad.jpg") ".zip" = false ∧
    hasImageExt "x.png" = true ∧
    read_uploaded_images [{ name := "bad.jpg", entries := [], decoded := Except.error () }]
      = [] ∧
    batchProcess stepFail [("a.jpg", mkImg 1 1)] = Except.ok [("a.jpg", [7])] ∧
    batchProcess stepFail [("a.jpg", mkImg 1 1), ("b.jpg", mkImg 1 1)]
      = Except.error () := by
  have h := batch_skip_and_abort "bad.jpg" "x.png" [] (mkImg 1 1) []
    [("a.jpg", mkImg 1 1)] [("a.jpg", mkImg 1 1)] [] ("b.jpg", mkImg 1 1)
    stepFail (fun it => (it.1, [7])) () (by decide) (by decide)
  refine ⟨by decide, by decide, h.1.trans rfl, ?_, ?_⟩
  · exact h.2.2.2.1 (by
      intro it hit
      simp only [List.mem_singleton] at hit
      subst hit
      rfl)
  · exact h.2.2.2.2 (by
      intro it hit
      simp only [List.mem_singleton] at hit
      subst hit
      rfl) rfl

/-- Counterexample to C1 as stated: in a two-image batch where `a.jpg`
processes fine and `b.jpg`'s processing raises, the batch loop produces no
output at all — `a.jpg` does not yield its encoded output, because the
unguarded exception aborts the loop. -/
theorem batch_abort_counterexample :
    stepFail ("a.jpg", mkImg 1 1) = Except.ok ("a.jpg", [7]) ∧
    batchProcess stepFail [("a.jpg", mkImg 1 1), ("b.jpg", mkImg 1 1)]
      = Except.error () := by
  constructor
  · rfl
  · rfl
